import Mathlib

/-!
Verification of the modbus-rs client stack: shallow embedding of the CRC-16
computation, RTU frame parsing, PDU buffers, typed request and response
constructors, iterator types and the serial transport receive logic, together
with proofs about the properties the specification states for them.

Bytes are modeled as `Nat` values; where the Rust code casts (`as u8`) the
embedding writes the corresponding `% 256`, and `u16` arguments carry explicit
`< 65536` bounds in the theorems.  Fallible Rust functions returning `Result`
are modeled with `Except`; a Rust slice-index or `unwrap` that can panic is
modeled by a dedicated result constructor so that out-of-bounds behavior is
observable.
-/

set_option maxRecDepth 100000

namespace Modbus

/-- From src/error.rs (`BufferError`), plus the `BufferUnderflow` variant used
by `common::Pdu::try_from`. -/
inductive BufferError
  | BufferOverflow
  | BufferUnderflow
  | NoSpaceLeft
deriving DecidableEq

/-- From src/error.rs (`ModbusRtuError`), plus the `InvalidFrameLength` and
`FrameIncomplete` variants used by src/frame/rtu.rs and src/transport/rtu.rs. -/
inductive ModbusRtuError
  | InvalidFrameLength
  | InvalidSlaveAddress (addr : Nat)
  | CrcValidationFailure
  | FrameIncomplete
deriving DecidableEq

/-- Application-level errors: the variants used by src/app/model/request.rs and
src/app/client.rs (`OutOfRange`, `UnexpectedCode(expected, got)`), with buffer
errors embedded. -/
inductive ModbusApplicationError
  | OutOfRange
  | UnexpectedCode (expected got : Nat)
  | Buffer (e : BufferError)
deriving DecidableEq

/-- From src/error.rs (`ModbusTransportError`), with the `RtuError` and buffer
embeddings used by src/transport/rtu.rs. -/
inductive ModbusTransportError
  | Timeout
  | FrameIncomplete
  | RtuError (e : ModbusRtuError)
  | Buffer (e : BufferError)
deriving DecidableEq

/-- From src/error.rs (`ModbusFrameError`), restricted to the embeddings the
modeled code paths use. -/
inductive ModbusFrameError
  | Rtu (e : ModbusRtuError)
  | Buffer (e : BufferError)
deriving DecidableEq

instance {ε α : Type} [DecidableEq ε] [DecidableEq α] : DecidableEq (Except ε α) := fun a b =>
  match a, b with
  | .error x, .error y =>
    if h : x = y then isTrue (by rw [h]) else isFalse (by intro hc; cases hc; exact h rfl)
  | .ok x, .ok y =>
    if h : x = y then isTrue (by rw [h]) else isFalse (by intro hc; cases hc; exact h rfl)
  | .error _, .ok _ => isFalse (by intro hc; cases hc)
  | .ok _, .error _ => isFalse (by intro hc; cases hc)

/-- One round of the Modbus CRC-16 bit loop with polynomial 0xA001: the body of
the inner `while j < 8` loop of `generate_crc_table` in src/frame/rtu.rs and of
the `for _ in 0..8` loop of `calc_crc` in src/transport/rtu.rs. -/
def crcBitRound (crc : Nat) : Nat :=
  if crc &&& 0x0001 ≠ 0 then (crc >>> 1) ^^^ 0xA001 else crc >>> 1

/-- `n` iterations of `crcBitRound`. -/
def crcBitRounds : Nat → Nat → Nat
  | 0, crc => crc
  | n + 1, crc => crcBitRounds n (crcBitRound crc)

/-- Entry `i` of the 256-entry lookup table `MODBUS_16_CRC` built by
`generate_crc_table` in src/frame/rtu.rs: eight bit rounds applied to `i`. -/
def MODBUS_16_CRC (i : Nat) : Nat := crcBitRounds 8 i

namespace frame_rtu

def MAX_ADU_SIZE : Nat := 256

/-- `calc_crc` from src/frame/rtu.rs: table-driven CRC-16, initial value
0xFFFF, one table step per byte. -/
def calc_crc (data : List Nat) : Nat :=
  data.foldl (fun crc byte => (crc >>> 8) ^^^ MODBUS_16_CRC ((crc ^^^ byte) &&& 0xFF)) 0xFFFF

/-- `check_frame_length` from src/frame/rtu.rs. -/
def check_frame_length (frame : List Nat) : Except ModbusRtuError Unit :=
  if frame.length < 4 ∨ frame.length > MAX_ADU_SIZE then
    .error .InvalidFrameLength
  else
    .ok ()

/-- `check_frame_address` from src/frame/rtu.rs; `frame[0]` is in bounds
because the length check runs first. -/
def check_frame_address (frame : List Nat) (address : Nat) : Except ModbusRtuError Unit :=
  if address = 0 ∨ frame.getD 0 0 = address then
    .ok ()
  else
    .error (.InvalidSlaveAddress (frame.getD 0 0))

/-- `checksum` from src/frame/rtu.rs. -/
def checksum (data : List Nat) (crc : Nat) : Except ModbusRtuError Unit :=
  if crc ≠ calc_crc data then .error .CrcValidationFailure else .ok ()

/-- `check_frame_crc` from src/frame/rtu.rs: the stored CRC is
`u16::from_le_bytes([frame[len-2], frame[len-1]])`. -/
def check_frame_crc (frame : List Nat) : Except ModbusRtuError Unit :=
  checksum (frame.take (frame.length - 2))
    (frame.getD (frame.length - 2) 0 + 256 * frame.getD (frame.length - 1) 0)

end frame_rtu

namespace frame_pdu

/-- `frame::pdu::Pdu`, a `DataUnit<253>`: modeled as the list of bytes written
so far (the `data[..position]` prefix of the backing array). -/
structure Pdu where
  data : List Nat
deriving DecidableEq

def MAX_PDU_SIZE : Nat := 253

/-- `DataUnit::push` specialized to capacity 253. -/
def push (p : Pdu) (src : Nat) : Except BufferError Pdu :=
  if p.data.length ≥ MAX_PDU_SIZE then .error .NoSpaceLeft
  else .ok ⟨p.data ++ [src]⟩

/-- `DataUnit::extend_from_slice` (`put_slice`) specialized to capacity 253. -/
def put_slice (p : Pdu) (src : List Nat) : Except BufferError Pdu :=
  if src.length > MAX_PDU_SIZE then .error .BufferOverflow
  else if p.data.length + src.length > MAX_PDU_SIZE then .error .NoSpaceLeft
  else .ok ⟨p.data ++ src⟩

/-- `frame::pdu::Pdu::new`: a fresh buffer holding the function-code byte. -/
def new (function_code : Nat) : Except BufferError Pdu :=
  push ⟨[]⟩ function_code

end frame_pdu

namespace frame_rtu

/-- `RtuFrameHandler::parse_frame` from src/frame/rtu.rs: length check, address
filter, CRC check, then a PDU built from `frame[1]` and `frame[2..len-2]`. -/
def parse_frame (frame : List Nat) (expected_address : Nat) :
    Except ModbusFrameError frame_pdu.Pdu :=
  match check_frame_length frame with
  | .error e => .error (.Rtu e)
  | .ok () =>
    match check_frame_address frame expected_address with
    | .error e => .error (.Rtu e)
    | .ok () =>
      match check_frame_crc frame with
      | .error e => .error (.Rtu e)
      | .ok () =>
        match frame_pdu.new (frame.getD 1 0) with
        | .error e => .error (.Buffer e)
        | .ok pdu =>
          match frame_pdu.put_slice pdu ((frame.drop 2).take (frame.length - 4)) with
          | .error e => .error (.Buffer e)
          | .ok pdu => .ok pdu

end frame_rtu

namespace transport_rtu

/-- `calc_crc` from src/transport/rtu.rs: bit-by-bit CRC-16, initial value
0xFFFF, xor the byte into the accumulator then eight bit rounds. -/
def calc_crc (data : List Nat) : Nat :=
  data.foldl (fun crc byte => crcBitRounds 8 (crc ^^^ byte)) 0xFFFF

/-- `checksum` from src/transport/rtu.rs. -/
def checksum (data : List Nat) (crc : Nat) : Except ModbusTransportError Unit :=
  if calc_crc data = crc then .ok ()
  else .error (.RtuError .CrcValidationFailure)

end transport_rtu

namespace common

/-- `common::Pdu`: a heapless vector of capacity 253 holding the function-code
byte followed by the payload; modeled as the list of stored bytes. -/
structure Pdu where
  data : List Nat
deriving DecidableEq

def MAX_PDU_SIZE : Nat := 253

/-- `common::Pdu::push`: the heapless vector push fails exactly when the
vector already holds 253 bytes. -/
def Pdu.push (p : Pdu) (buf : Nat) : Except BufferError Pdu :=
  if p.data.length < MAX_PDU_SIZE then .ok ⟨p.data ++ [buf]⟩
  else .error .NoSpaceLeft

/-- `common::Pdu::put_u8`. -/
def Pdu.put_u8 (p : Pdu) (value : Nat) : Except BufferError Pdu :=
  p.push value

/-- `common::Pdu::put_u16`: big-endian, `(value >> 8) as u8` then
`value as u8`. -/
def Pdu.put_u16 (p : Pdu) (value : Nat) : Except BufferError Pdu := do
  let p ← p.push ((value >>> 8) % 256)
  p.push (value % 256)

/-- `common::Pdu::extend_from_slice`. -/
def Pdu.extend_from_slice (p : Pdu) (buf : List Nat) : Except BufferError Pdu :=
  if buf.length > MAX_PDU_SIZE then .error .BufferOverflow
  else if p.data.length + buf.length ≤ MAX_PDU_SIZE then .ok ⟨p.data ++ buf⟩
  else .error .NoSpaceLeft

/-- `common::Pdu::new`: an empty vector with the function code pushed. -/
def Pdu.new (function_code : Nat) : Except BufferError Pdu :=
  Pdu.put_u8 ⟨[]⟩ function_code

/-- `common::Pdu::try_from(&[u8])`. -/
def Pdu.try_from (value : List Nat) : Except BufferError Pdu :=
  if value.length < 1 then .error .BufferUnderflow
  else if value.length ≤ MAX_PDU_SIZE then .ok ⟨value⟩
  else .error .BufferOverflow

/-- `common::Pdu::function_code`: `self.data[0]`.  Every `Pdu` produced by
`new` or `try_from` is nonempty, so the default is never read there. -/
def Pdu.function_code (p : Pdu) : Nat :=
  p.data.headD 0

/-- `common::Pdu::data`: the payload after the function-code byte. -/
def Pdu.payload (p : Pdu) : List Nat :=
  p.data.drop 1

/-- `common::Pdu::get`: reads the payload region, index 0 is the byte after
the function code. -/
def Pdu.get (p : Pdu) (index : Nat) : Option Nat :=
  p.data.get? (index + 1)

/-- `common::Pdu::get_u8`. -/
def Pdu.get_u8 (p : Pdu) (index : Nat) : Option Nat :=
  p.get index

/-- `common::Pdu::get_u16`: big-endian decode of payload bytes `h_idx` and
`h_idx + 1`. -/
def Pdu.get_u16 (p : Pdu) (h_idx : Nat) : Option Nat := do
  let high ← p.get h_idx
  let low ← p.get (h_idx + 1)
  pure (high * 256 + low)

end common

namespace app

open common

/-- `Request<ReadCoils>::new` from src/app/model/request.rs. -/
def ReadCoilsRequest.new (starting_address quantity_of_coils : Nat) :
    Except ModbusApplicationError Pdu :=
  if ¬(1 ≤ quantity_of_coils ∧ quantity_of_coils ≤ 2000) then .error .OutOfRange
  else
    match (do
      let pdu ← Pdu.new 0x01
      let pdu ← pdu.put_u16 starting_address
      pdu.put_u16 quantity_of_coils) with
    | .ok pdu => .ok pdu
    | .error e => .error (.Buffer e)

/-- `Request<ReadCoils>::starting_address`. -/
def ReadCoilsRequest.starting_address (p : Pdu) : Option Nat := p.get_u16 0

/-- `Request<ReadCoils>::quantity_of_coils`. -/
def ReadCoilsRequest.quantity_of_coils (p : Pdu) : Option Nat := p.get_u16 2

/-- `Request<ReadDiscreteInputs>::new` from src/app/model/request.rs. -/
def ReadDiscreteInputsRequest.new (starting_address quantity_of_inputs : Nat) :
    Except ModbusApplicationError Pdu :=
  if ¬(1 ≤ quantity_of_inputs ∧ quantity_of_inputs ≤ 2000) then .error .OutOfRange
  else
    match (do
      let pdu ← Pdu.new 0x02
      let pdu ← pdu.put_u16 starting_address
      pdu.put_u16 quantity_of_inputs) with
    | .ok pdu => .ok pdu
    | .error e => .error (.Buffer e)

/-- `Request<ReadDiscreteInputs>::starting_address`. -/
def ReadDiscreteInputsRequest.starting_address (p : Pdu) : Option Nat := p.get_u16 0

/-- `Request<ReadDiscreteInputs>::quantity_of_inputs`. -/
def ReadDiscreteInputsRequest.quantity_of_inputs (p : Pdu) : Option Nat := p.get_u16 2

/-- `Request<ReadHoldingRegisters>::new` from src/app/model/request.rs. -/
def ReadHoldingRegistersRequest.new (starting_address quantity_of_registers : Nat) :
    Except ModbusApplicationError Pdu :=
  if ¬(1 ≤ quantity_of_registers ∧ quantity_of_registers ≤ 125) then .error .OutOfRange
  else
    match (do
      let pdu ← Pdu.new 0x03
      let pdu ← pdu.put_u16 starting_address
      pdu.put_u16 quantity_of_registers) with
    | .ok pdu => .ok pdu
    | .error e => .error (.Buffer e)

/-- `Request<ReadHoldingRegisters>::starting_address`. -/
def ReadHoldingRegistersRequest.starting_address (p : Pdu) : Option Nat := p.get_u16 0

/-- `Request<ReadHoldingRegisters>::quantity_of_registers`. -/
def ReadHoldingRegistersRequest.quantity_of_registers (p : Pdu) : Option Nat := p.get_u16 2

/-- `Request<ReadInputRegisters>::new` from src/app/model/request.rs. -/
def ReadInputRegistersRequest.new (starting_address quantity_of_input_registers : Nat) :
    Except ModbusApplicationError Pdu :=
  if ¬(1 ≤ quantity_of_input_registers ∧ quantity_of_input_registers ≤ 125) then
    .error .OutOfRange
  else
    match (do
      let pdu ← Pdu.new 0x04
      let pdu ← pdu.put_u16 starting_address
      pdu.put_u16 quantity_of_input_registers) with
    | .ok pdu => .ok pdu
    | .error e => .error (.Buffer e)

/-- `Request<ReadInputRegisters>::starting_address`. -/
def ReadInputRegistersRequest.starting_address (p : Pdu) : Option Nat := p.get_u16 0

/-- `Request<ReadInputRegisters>::quantity_of_input_registers`. -/
def ReadInputRegistersRequest.quantity_of_input_registers (p : Pdu) : Option Nat := p.get_u16 2

/-- `Request<WriteSingleCoil>::new` from src/app/model/request.rs: the value
field is 0xFF00 when the coil is set, 0x0000 otherwise. -/
def WriteSingleCoilRequest.new (output_address : Nat) (output_value : Bool) :
    Except ModbusApplicationError Pdu :=
  match (do
    let pdu ← Pdu.new 0x05
    let pdu ← pdu.put_u16 output_address
    pdu.put_u16 (if output_value then 0xFF00 else 0x0000)) with
  | .ok pdu => .ok pdu
  | .error e => .error (.Buffer e)

/-- `Request<WriteSingleCoil>::output_address`. -/
def WriteSingleCoilRequest.output_address (p : Pdu) : Option Nat := p.get_u16 0

/-- `Request<WriteSingleCoil>::output_value`: decodes 0xFF00 to true and any
other stored value to false. -/
def WriteSingleCoilRequest.output_value (p : Pdu) : Option Bool :=
  (p.get_u16 2).map (fun v => v == 0xFF00)

/-- `Response<WriteSingleCoil>::new` from src/app/model/response.rs. -/
def WriteSingleCoilResponse.new (output_address : Nat) (output_value : Bool) :
    Except ModbusApplicationError Pdu :=
  match (do
    let pdu ← Pdu.new 0x05
    let pdu ← pdu.put_u16 output_address
    pdu.put_u16 (if output_value then 0xFF00 else 0x0000)) with
  | .ok pdu => .ok pdu
  | .error e => .error (.Buffer e)

/-- `Response<WriteSingleCoil>::output_address`. -/
def WriteSingleCoilResponse.output_address (p : Pdu) : Option Nat := p.get_u16 0

/-- `Response<WriteSingleCoil>::output_value`. -/
def WriteSingleCoilResponse.output_value (p : Pdu) : Option Bool :=
  (p.get_u16 2).map (fun v => v == 0xFF00)

end app

namespace types

/-- `BitSet` from src/app/types.rs. -/
structure BitSet where
  bytes : List Nat
  byte_index : Nat
  bit_index : Nat
deriving DecidableEq

/-- `BitSet::new`. -/
def BitSet.new (bytes : List Nat) : BitSet :=
  ⟨bytes, 0, 0⟩

/-- `BitSet::next`: picks bit `bit_index` of byte `byte_index`, LSB first;
the index into `bytes` is guarded by the length test, so it never goes out of
bounds. -/
def BitSet.next (s : BitSet) : Option (Bool × BitSet) :=
  if s.byte_index ≥ s.bytes.length then
    none
  else
    let bit := ((s.bytes.getD s.byte_index 0) >>> s.bit_index) &&& 0x01 != 0
    if s.bit_index + 1 ≥ 8 then
      some (bit, ⟨s.bytes, s.byte_index + 1, 0⟩)
    else
      some (bit, ⟨s.bytes, s.byte_index, s.bit_index + 1⟩)

/-- Runs a `BitSet` iterator for at most `fuel` steps, collecting the yielded
booleans. -/
def BitSet.run : Nat → BitSet → List Bool
  | 0, _ => []
  | fuel + 1, s =>
    match s.next with
    | none => []
    | some (b, s1) => b :: BitSet.run fuel s1

/-- `RegisterSlice` from src/app/types.rs. -/
structure RegisterSlice where
  bytes : List Nat
  index : Nat
deriving DecidableEq

/-- Outcome of one `RegisterSlice::next` call.  `indexOutOfBounds` marks the
case where the Rust code indexes `bytes[index + 1]` past the end of the
slice, which panics. -/
inductive RegisterStep
  | indexOutOfBounds
  | finished
  | yielded (value : Nat) (rest : RegisterSlice)
deriving DecidableEq

/-- `RegisterSlice::next`: the guard only checks `index`, then the code reads
`bytes[index]` and `bytes[index + 1]`. -/
def RegisterSlice.next (s : RegisterSlice) : RegisterStep :=
  if s.index ≥ s.bytes.length then .finished
  else
    match s.bytes.get? s.index, s.bytes.get? (s.index + 1) with
    | some high, some low => .yielded (high * 256 + low) ⟨s.bytes, s.index + 2⟩
    | _, _ => .indexOutOfBounds

end types

namespace app

open common types

/-- Outcome of `Response<ReadCoils>::coil_status`.  `sliceOutOfBounds` marks
the case where the Rust code slices `self.inner.data()[1..byte_count]` with an
upper bound past the end of the payload, which panics. -/
inductive CoilStatusResult
  | sliceOutOfBounds
  | absent
  | ok (bits : BitSet)
deriving DecidableEq

/-- `Response<ReadCoils>::coil_status` from src/app/model/response.rs:
`byte_count` is payload byte 0, `checked_add(1)` fails at 255, then the coil
bytes are `data()[1..byte_count + 1]`. -/
def ReadCoilsResponse.coil_status (p : Pdu) : CoilStatusResult :=
  match p.get_u8 0 with
  | none => .absent
  | some bc =>
    if bc + 1 ≤ 255 then
      let k := bc + 1
      if k ≤ p.payload.length then .ok (BitSet.new ((p.payload.drop 1).take (k - 1)))
      else .sliceOutOfBounds
    else .absent

/-- `Response<ReadCoils>::byte_count`. -/
def ReadCoilsResponse.byte_count (p : Pdu) : Option Nat := p.get_u8 0

end app

namespace client

open common

/-- The response acceptance check of `Client::user_defined` from
src/app/client.rs lines 111 to 120: the received function code must equal the
requested one exactly, otherwise `UnexpectedCode(expected, got)`; on success
the response PDU is returned unchanged (`UserDefinedResponse::from_pdu`). -/
def user_defined_check (function_code : Nat) (response : Pdu) :
    Except ModbusApplicationError Pdu :=
  if function_code ≠ response.function_code then
    .error (.UnexpectedCode function_code response.function_code)
  else
    .ok response

end client

namespace transport

open common

/-- `transport::Adu`: a fixed backing array of `MAX_ADU_SIZE = 256` bytes plus
a fill position.  `data` models the whole backing array (length 256 for real
buffers), `position` the number of valid bytes. -/
structure Adu where
  data : List Nat
  position : Nat
deriving DecidableEq

def MAX_ADU_SIZE : Nat := 256

/-- `Adu::len`. -/
def Adu.len (a : Adu) : Nat := a.position

/-- `Adu::as_slice`: the filled prefix of the backing array. -/
def Adu.as_slice (a : Adu) : List Nat := a.data.take a.position

/-- `Adu::get`: bounded by the fill position. -/
def Adu.get (a : Adu) (index : Nat) : Option Nat :=
  if index ≥ a.position then none else a.data.get? index

/-- `Adu::get_u16_le`. -/
def Adu.get_u16_le (a : Adu) (l_idx : Nat) : Option Nat := do
  let low ← a.get l_idx
  let high ← a.get (l_idx + 1)
  pure (low + 256 * high)

/-- `Adu::pdu` from src/transport.rs: `Pdu::try_from(&self.data[1..self.data.len() - 2])`.
`self.data.len()` is the length of the backing array (256), not the fill
position, so the slice is always `data[1..254]`. -/
def Adu.pdu (a : Adu) : Except BufferError Pdu :=
  Pdu.try_from ((a.data.drop 1).take (a.data.length - 2 - 1))

/-- The t3_5 inactivity-timer branch of `SerialTransport::recv` from
src/transport/rtu.rs lines 138 to 147, as a function of the accumulated
buffer.  The outer `none` marks the `unwrap` of `get_u16_le` failing, which
panics in Rust (unreachable for buffers whose position is at most the backing
length). -/
def recv_on_t3_5 (buffer : Adu) : Option (Except ModbusTransportError Pdu) :=
  let len := buffer.len
  if len > 2 then
    match buffer.get_u16_le (len - 2) with
    | none => none
    | some crc =>
      match transport_rtu.checksum (buffer.as_slice.take (len - 2)) crc with
      | .error e => some (.error e)
      | .ok () =>
        match buffer.pdu with
        | .error e => some (.error (.Buffer e))
        | .ok p => some (.ok p)
  else
    some (.error .Timeout)

/-- `SerialTransport::set_slave_addr` from src/transport/rtu.rs: accepts only
1 to 247; on failure the configured address is left unchanged.  Returns the
resulting configured address and the error, if any. -/
def set_slave_addr (current slave_addr : Nat) : Nat × Option ModbusRtuError :=
  if 1 ≤ slave_addr ∧ slave_addr ≤ 247 then (slave_addr, none)
  else (current, some (.InvalidSlaveAddress slave_addr))

/-- A receive buffer holding one complete valid frame for slave 0x11 with PDU
`[0x07]` and a correct CRC, inside the 256-byte backing array. -/
def recvBufGood : Adu :=
  ⟨[0x11, 0x07, transport_rtu.calc_crc [0x11, 0x07] % 256,
    transport_rtu.calc_crc [0x11, 0x07] / 256] ++ List.replicate 252 0, 4⟩

/-- A receive buffer holding the same frame with a wrong CRC trailer. -/
def recvBufBad : Adu :=
  ⟨[0x11, 0x07, 0x00, 0x00] ++ List.replicate 252 0, 4⟩

end transport

/-- The booleans produced from one byte, LSB first. -/
def byteBits (b : Nat) : List Bool :=
  (List.range 8).map (fun i => (b >>> i) &&& 0x01 != 0)

/-- The booleans produced from a byte list, LSB first within each byte. -/
def bitsOfBytes : List Nat → List Bool
  | [] => []
  | b :: rest => byteBits b ++ bitsOfBytes rest

/-- Claim C2: the Modbus CRC-16 (initial value 0xFFFF, polynomial 0xA001, no
final xor) satisfies the five reference vectors: the ASCII bytes of
123456789 give 0x4B37, the empty input gives 0xFFFF, [0x01] gives 0x807E,
[0x01,0x02,0x03,0x04] gives 0x2BA1 and [0xFF,0x00,0xFF,0x00] gives 0xC071. -/
theorem calc_crc_reference_vectors :
    frame_rtu.calc_crc [0x31, 0x32, 0x33, 0x34, 0x35, 0x36, 0x37, 0x38, 0x39] = 0x4B37 ∧
    frame_rtu.calc_crc [] = 0xFFFF ∧
    frame_rtu.calc_crc [0x01] = 0x807E ∧
    frame_rtu.calc_crc [0x01, 0x02, 0x03, 0x04] = 0x2BA1 ∧
    frame_rtu.calc_crc [0xFF, 0x00, 0xFF, 0x00] = 0xC071 := by
  refine ⟨?_, ?_, ?_, ?_, ?_⟩ <;> decide

/-- Claim C4: contrary to the no-panic contract, both read paths index out of
bounds.  `RegisterSlice::next` on the odd-length slice [0x01] reads
`bytes[1]` past the end instead of returning `None`, and `coil_status` on a
ReadCoils response whose stored byte_count (5) exceeds the payload actually
present (2 bytes) slices past the end instead of returning an absent value. -/
theorem read_accessors_index_out_of_bounds :
    types.RegisterSlice.next ⟨[0x01], 0⟩ = .indexOutOfBounds ∧
    app.ReadCoilsResponse.coil_status ⟨[0x01, 0x05, 0xCD, 0x6B]⟩ = .sliceOutOfBounds := by
  decide

/-- Claim C6: when the t3_5 timer fires with a buffer holding one complete
valid frame for slave 0x11 with PDU [0x07], the code does not return that PDU:
`Adu::pdu` slices the backing array with its full length 256 and yields a
253-byte PDU of stale bytes.  When the CRC check of the accumulated buffer
fails, the code returns `CrcValidationFailure`, not `Timeout`. -/
theorem recv_timer_branch_divergence :
    transport.recv_on_t3_5 transport.recvBufGood =
      some (.ok ⟨(transport.recvBufGood.data.drop 1).take 253⟩) ∧
    ((transport.recvBufGood.data.drop 1).take 253).length = 253 ∧
    transport.recv_on_t3_5 transport.recvBufGood ≠ some (.ok ⟨[0x07]⟩) ∧
    transport.recv_on_t3_5 transport.recvBufBad =
      some (.error (.RtuError .CrcValidationFailure)) ∧
    ModbusTransportError.RtuError .CrcValidationFailure ≠ .Timeout := by
  refine ⟨?_, ?_, ?_, ?_, ?_⟩ <;> decide

/-- Claim C9 counterexample: the claim asserts that address 0 is accepted as a
broadcast-listener sentinel, but `set_slave_addr` rejects 0 with
`InvalidSlaveAddress(0)` and leaves the configured address unchanged. -/
theorem set_slave_addr_rejects_zero :
    transport.set_slave_addr 5 0 = (5, some (.InvalidSlaveAddress 0)) := by decide

/-- Claim C9 amended: `set_slave_addr(a)` succeeds exactly for a in 1..=247;
it fails with `InvalidSlaveAddress(a)` for a = 0 and for a in 248..=255,
leaving the configured slave address unchanged on failure. -/
theorem set_slave_addr_range (current a : Nat) :
    (1 ≤ a ∧ a ≤ 247 → transport.set_slave_addr current a = (a, none)) ∧
    (¬(1 ≤ a ∧ a ≤ 247) →
      transport.set_slave_addr current a = (current, some (.InvalidSlaveAddress a))) := by
  constructor <;> intro h <;> simp [transport.set_slave_addr, h]

/-- Witness for the amended C9 statement at the concrete addresses 3 and
248. -/
theorem set_slave_addr_range_witness :
    transport.set_slave_addr 5 3 = (3, none) ∧
    transport.set_slave_addr 5 248 = (5, some (.InvalidSlaveAddress 248)) :=
  ⟨(set_slave_addr_range 5 3).1 (by omega), (set_slave_addr_range 5 248).2 (by omega)⟩

/-- Claim C5 counterexample: with expected code 0x0A and a response whose
function code is 0x8A (exception bit set), the masked comparison of the claim
would accept, but `user_defined` compares codes exactly and rejects, so the
stated acceptance condition is false at this input. -/
theorem user_defined_mask_counterexample :
    ¬ (client.user_defined_check 0x0A ⟨[0x8A, 0x01]⟩ = .ok ⟨[0x8A, 0x01]⟩ ↔
        0x0A = common.Pdu.function_code ⟨[0x8A, 0x01]⟩ &&& 0x7F) := by
  decide

/-- Claim C5 amended: `user_defined(fc, data)` accepts a response exactly when
the response function code equals fc with no masking of the 0x80 exception
bit, and otherwise fails with `UnexpectedCode(fc, got)` carrying both codes. -/
theorem user_defined_check_exact (fc : Nat) (resp : common.Pdu) (hne : resp.data ≠ []) :
    (fc = resp.function_code → client.user_defined_check fc resp = .ok resp) ∧
    (fc ≠ resp.function_code →
      client.user_defined_check fc resp =
        .error (.UnexpectedCode fc resp.function_code)) := by
  constructor <;> intro h <;> simp [client.user_defined_check, h]

/-- Witness for the amended C5 statement: expected code 0x0A against responses
with function codes 0x0A and 0x03. -/
theorem user_defined_check_exact_witness :
    client.user_defined_check 0x0A ⟨[0x0A, 0x01]⟩ = .ok ⟨[0x0A, 0x01]⟩ ∧
    client.user_defined_check 0x0A ⟨[0x03]⟩ = .error (.UnexpectedCode 0x0A 0x03) :=
  ⟨(user_defined_check_exact 0x0A ⟨[0x0A, 0x01]⟩ (by decide)).1 (by decide),
   (user_defined_check_exact 0x0A ⟨[0x03]⟩ (by decide)).2 (by decide)⟩

/-- Building a PDU from a function code and two big-endian u16 fields yields
the expected five bytes; none of the buffer operations can fail at these
lengths. -/
theorem build_two_u16 (fc s q : Nat) :
    (do
      let pdu ← common.Pdu.new fc
      let pdu ← pdu.put_u16 s
      pdu.put_u16 q : Except BufferError common.Pdu) =
      .ok ⟨[fc, (s >>> 8) % 256, s % 256, (q >>> 8) % 256, q % 256]⟩ := rfl

/-- Splitting a u16 into its big-endian bytes and recombining is the
identity. -/
theorem be_split_roundtrip (v : Nat) (hv : v < 65536) :
    ((v >>> 8) % 256) * 256 + v % 256 = v := by
  rw [Nat.shiftRight_eq_div_pow]
  have h : (2 : Nat) ^ 8 = 256 := rfl
  rw [h]
  omega

/-- Decoding the two big-endian u16 fields of a five-byte PDU recovers the
original values. -/
theorem get_u16_built (fc s q : Nat) (hs : s < 65536) (hq : q < 65536) :
    common.Pdu.get_u16 ⟨[fc, (s >>> 8) % 256, s % 256, (q >>> 8) % 256, q % 256]⟩ 0 = some s ∧
    common.Pdu.get_u16 ⟨[fc, (s >>> 8) % 256, s % 256, (q >>> 8) % 256, q % 256]⟩ 2 = some q := by
  constructor
  · show some (((s >>> 8) % 256) * 256 + s % 256) = some s
    rw [be_split_roundtrip s hs]
  · show some (((q >>> 8) % 256) * 256 + q % 256) = some q
    rw [be_split_roundtrip q hq]

/-- Claim C3: for every start and qty, `ReadCoils::new` and
`ReadDiscreteInputs::new` succeed exactly when 1 <= qty <= 2000, and
`ReadHoldingRegisters::new` and `ReadInputRegisters::new` succeed exactly when
1 <= qty <= 125, failing with `OutOfRange` otherwise; on success the
`starting_address` and quantity accessors re-decode exactly `Some(start)` and
`Some(qty)` from the constructed PDU bytes. -/
theorem read_request_range_and_roundtrip (start qty : Nat)
    (hs : start < 65536) (hq : qty < 65536) :
    ((1 ≤ qty ∧ qty ≤ 2000) →
      ∃ p, app.ReadCoilsRequest.new start qty = .ok p ∧
        app.ReadCoilsRequest.starting_address p = some start ∧
        app.ReadCoilsRequest.quantity_of_coils p = some qty) ∧
    (¬(1 ≤ qty ∧ qty ≤ 2000) →
      app.ReadCoilsRequest.new start qty = .error .OutOfRange) ∧
    ((1 ≤ qty ∧ qty ≤ 2000) →
      ∃ p, app.ReadDiscreteInputsRequest.new start qty = .ok p ∧
        app.ReadDiscreteInputsRequest.starting_address p = some start ∧
        app.ReadDiscreteInputsRequest.quantity_of_inputs p = some qty) ∧
    (¬(1 ≤ qty ∧ qty ≤ 2000) →
      app.ReadDiscreteInputsRequest.new start qty = .error .OutOfRange) ∧
    ((1 ≤ qty ∧ qty ≤ 125) →
      ∃ p, app.ReadHoldingRegistersRequest.new start qty = .ok p ∧
        app.ReadHoldingRegistersRequest.starting_address p = some start ∧
        app.ReadHoldingRegistersRequest.quantity_of_registers p = some qty) ∧
    (¬(1 ≤ qty ∧ qty ≤ 125) →
      app.ReadHoldingRegistersRequest.new start qty = .error .OutOfRange) ∧
    ((1 ≤ qty ∧ qty ≤ 125) →
      ∃ p, app.ReadInputRegistersRequest.new start qty = .ok p ∧
        app.ReadInputRegistersRequest.starting_address p = some start ∧
        app.ReadInputRegistersRequest.quantity_of_input_registers p = some qty) ∧
    (¬(1 ≤ qty ∧ qty ≤ 125) →
      app.ReadInputRegistersRequest.new start qty = .error .OutOfRange) := by
  refine ⟨fun h => ?_, fun h => ?_, fun h => ?_, fun h => ?_,
    fun h => ?_, fun h => ?_, fun h => ?_, fun h => ?_⟩
  · refine ⟨⟨[0x01, (start >>> 8) % 256, start % 256, (qty >>> 8) % 256, qty % 256]⟩, ?_,
      (get_u16_built 0x01 start qty hs hq).1, (get_u16_built 0x01 start qty hs hq).2⟩
    unfold app.ReadCoilsRequest.new
    rw [if_neg (not_not_intro h), build_two_u16]
  · unfold app.ReadCoilsRequest.new
    rw [if_pos h]
  · refine ⟨⟨[0x02, (start >>> 8) % 256, start % 256, (qty >>> 8) % 256, qty % 256]⟩, ?_,
      (get_u16_built 0x02 start qty hs hq).1, (get_u16_built 0x02 start qty hs hq).2⟩
    unfold app.ReadDiscreteInputsRequest.new
    rw [if_neg (not_not_intro h), build_two_u16]
  · unfold app.ReadDiscreteInputsRequest.new
    rw [if_pos h]
  · refine ⟨⟨[0x03, (start >>> 8) % 256, start % 256, (qty >>> 8) % 256, qty % 256]⟩, ?_,
      (get_u16_built 0x03 start qty hs hq).1, (get_u16_built 0x03 start qty hs hq).2⟩
    unfold app.ReadHoldingRegistersRequest.new
    rw [if_neg (not_not_intro h), build_two_u16]
  · unfold app.ReadHoldingRegistersRequest.new
    rw [if_pos h]
  · refine ⟨⟨[0x04, (start >>> 8) % 256, start % 256, (qty >>> 8) % 256, qty % 256]⟩, ?_,
      (get_u16_built 0x04 start qty hs hq).1, (get_u16_built 0x04 start qty hs hq).2⟩
    unfold app.ReadInputRegistersRequest.new
    rw [if_neg (not_not_intro h), build_two_u16]
  · unfold app.ReadInputRegistersRequest.new
    rw [if_pos h]

/-- Witness for C3: quantity 2001 is rejected by ReadCoils, and the holding
register request for start 0x006B, qty 3 round-trips. -/
theorem read_request_range_and_roundtrip_witness :
    app.ReadCoilsRequest.new 7 2001 = .error .OutOfRange ∧
    ∃ p, app.ReadHoldingRegistersRequest.new 0x006B 3 = .ok p ∧
      app.ReadHoldingRegistersRequest.starting_address p = some 0x006B ∧
      app.ReadHoldingRegistersRequest.quantity_of_registers p = some 3 :=
  ⟨(read_request_range_and_roundtrip 7 2001 (by omega) (by omega)).2.1 (by omega),
   (read_request_range_and_roundtrip 0x006B 3 (by omega) (by omega)).2.2.2.2.1 (by omega)⟩

/-- Claim C8: `WriteSingleCoil` request and response construction encode a
true value as 0xFF00 and a false value as 0x0000 in the value field, and
`output_value` decodes a stored field of 0xFF00 as true and every other u16
value as false. -/
theorem write_single_coil_encoding (addr : Nat) (b : Bool) (ha : addr < 65536) :
    (∃ p, app.WriteSingleCoilRequest.new addr b = .ok p ∧
      common.Pdu.get_u16 p 2 = some (if b then 0xFF00 else 0x0000) ∧
      app.WriteSingleCoilRequest.output_address p = some addr) ∧
    (∃ p, app.WriteSingleCoilResponse.new addr b = .ok p ∧
      common.Pdu.get_u16 p 2 = some (if b then 0xFF00 else 0x0000)) ∧
    (∀ v : Nat, v < 65536 →
      app.WriteSingleCoilResponse.output_value
          ⟨[0x05, (addr >>> 8) % 256, addr % 256, (v >>> 8) % 256, v % 256]⟩ =
        some (decide (v = 0xFF00))) := by
  have hval : (if b then (0xFF00 : Nat) else 0x0000) < 65536 := by cases b <;> decide
  refine ⟨?_, ?_, ?_⟩
  · refine ⟨⟨[0x05, (addr >>> 8) % 256, addr % 256,
      ((if b then 0xFF00 else 0x0000) >>> 8) % 256, (if b then 0xFF00 else 0x0000) % 256]⟩,
      ?_, ?_, ?_⟩
    · unfold app.WriteSingleCoilRequest.new
      rw [build_two_u16]
    · exact (get_u16_built 0x05 addr _ ha hval).2
    · exact (get_u16_built 0x05 addr _ ha hval).1
  · refine ⟨⟨[0x05, (addr >>> 8) % 256, addr % 256,
      ((if b then 0xFF00 else 0x0000) >>> 8) % 256, (if b then 0xFF00 else 0x0000) % 256]⟩,
      ?_, ?_⟩
    · unfold app.WriteSingleCoilResponse.new
      rw [build_two_u16]
    · exact (get_u16_built 0x05 addr _ ha hval).2
  · intro v hv
    show Option.map _ (common.Pdu.get_u16 _ 2) = _
    rw [(get_u16_built 0x05 addr v ha hv).2]
    by_cases hveq : v = 0xFF00 <;> simp [hveq]

/-- Witness for C8 at address 1 with value true, and decoding of the stored
fields 0xFF00 and 0x0000. -/
theorem write_single_coil_encoding_witness :
    (∃ p, app.WriteSingleCoilRequest.new 1 true = .ok p ∧
      common.Pdu.get_u16 p 2 = some 0xFF00 ∧
      app.WriteSingleCoilRequest.output_address p = some 1) ∧
    app.WriteSingleCoilResponse.output_value ⟨[0x05, 0, 1, 0xFF, 0x00]⟩ = some true ∧
    app.WriteSingleCoilResponse.output_value ⟨[0x05, 0, 1, 0x00, 0x00]⟩ = some false :=
  ⟨(write_single_coil_encoding 1 true (by omega)).1,
   (write_single_coil_encoding 1 true (by omega)).2.2 0xFF00 (by omega),
   (write_single_coil_encoding 1 true (by omega)).2.2 0x0000 (by omega)⟩

/-- For frames of length at least 4, the slice frame[1..len-2] decomposes as
frame[1] followed by frame[2..len-2]. -/
theorem drop_take_head : ∀ (frame : List Nat), 4 ≤ frame.length →
    (frame.drop 1).take (frame.length - 3) =
      frame.getD 1 0 :: (frame.drop 2).take (frame.length - 4)
  | x :: y :: t, h => by
    have ht : 2 ≤ t.length := by
      simp only [List.length_cons] at h
      omega
    have h3 : (x :: y :: t).length - 3 = (t.length - 2) + 1 := by
      simp only [List.length_cons]
      omega
    have h4 : (x :: y :: t).length - 4 = t.length - 2 := by
      simp only [List.length_cons]
      omega
    rw [h3, h4]
    rfl

/-- `frame::pdu::Pdu::new` always succeeds: the fresh buffer is empty. -/
theorem frame_pdu_new_ok (fc : Nat) : frame_pdu.new fc = .ok ⟨[fc]⟩ := rfl

/-- `put_slice` on a one-byte buffer succeeds for sources of at most 252
bytes. -/
theorem frame_pdu_put_slice_ok (x : Nat) (src : List Nat) (h : src.length ≤ 252) :
    frame_pdu.put_slice ⟨[x]⟩ src = .ok ⟨x :: src⟩ := by
  unfold frame_pdu.put_slice frame_pdu.MAX_PDU_SIZE
  split_ifs with hA hB
  · exact absurd hA (by omega)
  · exfalso
    simp at hB
    omega
  · rfl

/-- Claim C1: `RtuFrameHandler::parse_frame(frame, a)` decides in order: a
frame shorter than 4 or longer than 256 bytes fails with
`InvalidFrameLength`; otherwise a nonzero expected address different from
frame[0] fails with `InvalidSlaveAddress(frame[0])` (expected address 0
accepts every frame); otherwise a CRC recomputed over frame[..len-2] that
differs from the little-endian u16 of the last two bytes fails with
`CrcValidationFailure`; otherwise the result is the PDU whose bytes are
exactly frame[1..len-2]. -/
theorem parse_frame_spec (frame : List Nat) (a : Nat) :
    frame_rtu.parse_frame frame a =
      if frame.length < 4 ∨ frame.length > 256 then
        .error (.Rtu .InvalidFrameLength)
      else if a ≠ 0 ∧ frame.getD 0 0 ≠ a then
        .error (.Rtu (.InvalidSlaveAddress (frame.getD 0 0)))
      else if frame.getD (frame.length - 2) 0 + 256 * frame.getD (frame.length - 1) 0 ≠
          frame_rtu.calc_crc (frame.take (frame.length - 2)) then
        .error (.Rtu .CrcValidationFailure)
      else
        .ok ⟨(frame.drop 1).take (frame.length - 3)⟩ := by
  have hm : frame_rtu.MAX_ADU_SIZE = 256 := rfl
  unfold frame_rtu.parse_frame frame_rtu.check_frame_length frame_rtu.check_frame_address
    frame_rtu.check_frame_crc frame_rtu.checksum
  rw [hm]
  by_cases h1 : frame.length < 4 ∨ frame.length > 256
  · rw [if_pos h1, if_pos h1]
  · rw [if_neg h1, if_neg h1]
    by_cases h2 : a = 0 ∨ frame.getD 0 0 = a
    · have h2r : ¬(a ≠ 0 ∧ frame.getD 0 0 ≠ a) := fun hc => h2.elim hc.1 hc.2
      rw [if_pos h2, if_neg h2r]
      by_cases h3 : frame.getD (frame.length - 2) 0 + 256 * frame.getD (frame.length - 1) 0 ≠
          frame_rtu.calc_crc (frame.take (frame.length - 2))
      · rw [if_pos h3, if_pos h3]
      · rw [if_neg h3, if_neg h3]
        have hlen : 4 ≤ frame.length ∧ frame.length ≤ 256 := by
          push_neg at h1
          omega
        have hsrc : ((frame.drop 2).take (frame.length - 4)).length = frame.length - 4 := by
          simp only [List.length_take, List.length_drop]
          omega
        rw [frame_pdu_new_ok]
        dsimp only
        rw [frame_pdu_put_slice_ok (frame.getD 1 0) _ (by rw [hsrc]; omega)]
        dsimp only
        rw [drop_take_head frame hlen.1]
    · have h2r : a ≠ 0 ∧ frame.getD 0 0 ≠ a :=
        ⟨fun h => h2 (Or.inl h), fun h => h2 (Or.inr h)⟩
      rw [if_neg h2, if_pos h2r]

/-- Unfolding of the bit-iterator runner by one step. -/
theorem bitset_run_succ (fuel : Nat) (s : types.BitSet) :
    types.BitSet.run (fuel + 1) s =
      match s.next with
      | none => []
      | some (b, s1) => b :: types.BitSet.run fuel s1 := rfl

/-- Mapping a shifted function over `range (m + 1)` peels off the head. -/
theorem range_map_shift {A : Type} (f : Nat -> A) (i m : Nat) :
    (List.range (m + 1)).map (fun k => f (i + k)) =
      f i :: (List.range m).map (fun k => f (i + 1 + k)) := by
  rw [List.range_succ_eq_map, List.map_cons, List.map_map]
  have hf : ((fun k => f (i + k)) ∘ Nat.succ) = fun k => f (i + 1 + k) := by
    funext k
    simp only [Function.comp_apply]
    congr 1
    omega
  rw [hf, Nat.add_zero]

/-- One step of the bit iterator while the byte index is in bounds. -/
theorem bitset_next_lt {bs : List Nat} {j i : Nat} (hj : j < bs.length) :
    types.BitSet.next ⟨bs, j, i⟩ =
      some ((bs.getD j 0 >>> i) &&& 0x01 != 0,
        if i + 1 ≥ 8 then ⟨bs, j + 1, 0⟩ else ⟨bs, j, i + 1⟩) := by
  unfold types.BitSet.next
  rw [if_neg (show ¬(j ≥ bs.length) from by omega)]
  by_cases h8 : i + 1 ≥ 8
  · rw [if_pos h8, if_pos h8]
  · rw [if_neg h8, if_neg h8]

/-- Running the bit iterator through the remaining `n` bits of byte `j` yields
those bits LSB first and leaves the iterator at the start of byte `j + 1`. -/
theorem bitset_run_byte : ∀ (n i fuel : Nat) (bs : List Nat) (j : Nat),
    j < bs.length → i + n = 8 → 1 ≤ n →
    types.BitSet.run (fuel + n) ⟨bs, j, i⟩ =
      ((List.range n).map (fun k => (bs.getD j 0 >>> (i + k)) &&& 0x01 != 0)) ++
        types.BitSet.run fuel ⟨bs, j + 1, 0⟩
  | 0, _, _, _, _, _, _, h1 => absurd h1 (by omega)
  | 1, i, fuel, bs, j, hj, hi, _ => by
    have hi7 : i = 7 := by omega
    subst hi7
    rw [bitset_run_succ, bitset_next_lt hj, if_pos (by omega : 7 + 1 ≥ 8)]
    rw [show List.range 1 = [0] from rfl]
    simp only [List.map_cons, List.map_nil, Nat.add_zero]
    rfl
  | m + 2, i, fuel, bs, j, hj, hi, _ => by
    have ih := bitset_run_byte (m + 1) (i + 1) fuel bs j hj (by omega) (by omega)
    show types.BitSet.run ((fuel + (m + 1)) + 1) ⟨bs, j, i⟩ = _
    rw [bitset_run_succ, bitset_next_lt hj, if_neg (show ¬(i + 1 ≥ 8) from by omega)]
    dsimp only
    rw [ih]
    rw [range_map_shift (fun t => bs.getD j 0 >>> t &&& 0x01 != 0) i (m + 1)]
    rfl

/-- Running the iterator with fuel for the whole remaining suffix consumes the
suffix and leaves the byte index at the end of the list. -/
theorem bitset_run_from : ∀ (suf pre : List Nat) (e : Nat),
    types.BitSet.run (8 * suf.length + e) ⟨pre ++ suf, pre.length, 0⟩ =
      bitsOfBytes suf ++ types.BitSet.run e ⟨pre ++ suf, (pre ++ suf).length, 0⟩
  | [], pre, e => by
    simp [bitsOfBytes]
  | b :: rest, pre, e => by
    have hj : pre.length < (pre ++ b :: rest).length := by simp
    have hget : (pre ++ b :: rest).getD pre.length 0 = b := by
      rw [List.getD_eq_get?, List.get?_append_right (le_refl _)]
      simp
    have harith : 8 * (b :: rest).length + e = (8 * rest.length + e) + 8 := by
      simp only [List.length_cons]
      omega
    rw [harith]
    rw [bitset_run_byte 8 0 (8 * rest.length + e) _ _ hj (by omega) (by omega)]
    rw [hget]
    have hL : pre ++ b :: rest = (pre ++ [b]) ++ rest := by simp
    rw [hL, show pre.length + 1 = (pre ++ [b]).length from by simp]
    rw [bitset_run_from rest (pre ++ [b]) e]
    simp [bitsOfBytes, byteBits]

/-- Once the byte index reaches the end of the list the iterator yields
nothing. -/
theorem bitset_run_end (bs : List Nat) (e : Nat) :
    types.BitSet.run e ⟨bs, bs.length, 0⟩ = [] := by
  cases e with
  | zero => rfl
  | succ e =>
    rw [bitset_run_succ]
    unfold types.BitSet.next
    rw [if_pos (le_refl _)]

/-- The iterator started by `BitSet::new` produces exactly the LSB-first bits
of the byte list. -/
theorem bitset_list_eq (bs : List Nat) :
    types.BitSet.run (8 * bs.length + 1) (types.BitSet.new bs) = bitsOfBytes bs := by
  have h := bitset_run_from bs [] 1
  simp only [List.nil_append, List.length_nil] at h
  rw [types.BitSet.new, h, bitset_run_end]
  simp

theorem bitsOfBytes_length (bs : List Nat) : (bitsOfBytes bs).length = 8 * bs.length := by
  induction bs with
  | nil => rfl
  | cons b rest ih =>
    simp only [bitsOfBytes, List.length_append, List.length_cons, ih]
    have hb : (byteBits b).length = 8 := by simp [byteBits]
    omega

theorem bitsOfBytes_getD : ∀ (bs : List Nat) (j i : Nat), j < bs.length → i < 8 →
    (bitsOfBytes bs).getD (8 * j + i) false = ((bs.getD j 0 >>> i) &&& 0x01 != 0)
  | b :: rest, 0, i, _, hi => by
    show (byteBits b ++ bitsOfBytes rest).getD (8 * 0 + i) false = _
    rw [show 8 * 0 + i = i from by omega]
    rw [List.getD_eq_get?, List.get?_append (by simp [byteBits]; omega)]
    rw [byteBits, List.get?_map, List.get?_range hi]
    rfl
  | b :: rest, j + 1, i, hj, hi => by
    show (byteBits b ++ bitsOfBytes rest).getD (8 * (j + 1) + i) false = _
    rw [List.getD_eq_get?, List.get?_append_right (by simp [byteBits]; omega)]
    rw [show 8 * (j + 1) + i - (byteBits b).length = 8 * j + i from by simp [byteBits]; omega]
    rw [← List.getD_eq_get?]
    exact bitsOfBytes_getD rest j i (by simpa using hj) hi

/-- Claim C7: over any byte slice the bit iterator yields exactly eight times
the number of bytes booleans; for k = 8j + i with i < 8 the k-th value is bit
i, counted from the least significant bit, of byte j; in particular the single
byte 0x12 yields (false, true, false, false, true, false, false, false) and
then ends. -/
theorem bitset_lsb_first (bytes : List Nat) :
    (types.BitSet.run (8 * bytes.length + 1) (types.BitSet.new bytes)).length =
      8 * bytes.length ∧
    (∀ j i, j < bytes.length → i < 8 →
      (types.BitSet.run (8 * bytes.length + 1) (types.BitSet.new bytes)).getD (8 * j + i)
          false =
        ((bytes.getD j 0 >>> i) &&& 0x01 != 0)) ∧
    types.BitSet.run 9 (types.BitSet.new [0x12]) =
      [false, true, false, false, true, false, false, false] := by
  refine ⟨?_, ?_, ?_⟩
  · rw [bitset_list_eq, bitsOfBytes_length]
  · intro j i hj hi
    rw [bitset_list_eq]
    exact bitsOfBytes_getD bytes j i hj hi
  · decide

/-- Witness for C7 on the byte 0x12 at position j = 0, i = 1. -/
theorem bitset_lsb_first_witness :
    (types.BitSet.run 9 (types.BitSet.new [0x12])).getD 1 false = true := by
  have h := (bitset_lsb_first [0x12]).2.1 0 1 (by decide) (by decide)
  exact h.trans (by decide)

/-- Shifting right distributes over xor. -/
theorem shiftRight_xor_distrib (x y n : Nat) : (x ^^^ y) >>> n = (x >>> n) ^^^ (y >>> n) := by
  apply Nat.eq_of_testBit_eq
  intro i
  simp [Nat.testBit_shiftRight, Nat.testBit_xor]

/-- Left commutativity of xor on Nat. -/
theorem nat_xor_left_comm (a b c : Nat) : a ^^^ (b ^^^ c) = b ^^^ (a ^^^ c) := by
  rw [← Nat.xor_assoc, Nat.xor_comm a b, Nat.xor_assoc]

/-- The CRC bit round written as an unconditional xor with a parity-selected
constant. -/
theorem crcBitRound_eq (z : Nat) :
    crcBitRound z = (z >>> 1) ^^^ (if z % 2 = 1 then 0xA001 else 0) := by
  unfold crcBitRound
  rw [Nat.and_one_is_mod]
  rcases Nat.mod_two_eq_zero_or_one z with h | h <;> simp [h]

/-- The CRC bit round is linear over xor. -/
theorem crcBitRound_xor (x y : Nat) :
    crcBitRound (x ^^^ y) = crcBitRound x ^^^ crcBitRound y := by
  rw [crcBitRound_eq, crcBitRound_eq, crcBitRound_eq, shiftRight_xor_distrib]
  have hxy : (x ^^^ y) % 2 = (x % 2) ^^^ (y % 2) := by
    rw [← Nat.and_one_is_mod, ← Nat.and_one_is_mod x, ← Nat.and_one_is_mod y,
      Nat.and_xor_distrib_right]
  rw [hxy]
  rcases Nat.mod_two_eq_zero_or_one x with hx | hx <;>
    rcases Nat.mod_two_eq_zero_or_one y with hy | hy <;>
      simp [hx, hy, Nat.xor_assoc, Nat.xor_comm, nat_xor_left_comm]

/-- Iterated CRC bit rounds are linear over xor. -/
theorem crcBitRounds_xor (n : Nat) : ∀ x y : Nat,
    crcBitRounds n (x ^^^ y) = crcBitRounds n x ^^^ crcBitRounds n y := by
  induction n with
  | zero => intro x y; rfl
  | succ n ih =>
    intro x y
    show crcBitRounds n (crcBitRound (x ^^^ y)) = _
    rw [crcBitRound_xor]
    exact ih _ _

/-- A value with at least one trailing zero bit is even, so one CRC bit round
is a plain right shift. -/
theorem crcBitRound_shiftLeft (x k : Nat) :
    crcBitRound (x <<< (k + 1)) = x <<< k := by
  rw [crcBitRound_eq]
  have heven : x <<< (k + 1) % 2 = 0 := by
    rw [Nat.shiftLeft_succ]
    omega
  rw [heven]
  simp only [if_neg (by omega : ¬(0 = 1)), Nat.xor_zero]
  rw [Nat.shiftLeft_succ]
  have h2 : (2 * (x <<< k)) >>> 1 = x <<< k := by
    rw [Nat.shiftRight_succ, Nat.shiftRight_zero]
    omega
  exact h2

/-- Eight CRC bit rounds applied to a value shifted left by eight undo the
shift. -/
theorem crcBitRounds_shiftLeft : ∀ (n x : Nat), crcBitRounds n (x <<< n) = x := by
  intro n
  induction n with
  | zero => intro x; rfl
  | succ n ih =>
    intro x
    show crcBitRounds n (crcBitRound (x <<< (n + 1))) = x
    rw [crcBitRound_shiftLeft]
    exact ih x

/-- Every Nat splits as the xor of its high part shifted back and its low
byte. -/
theorem xor_low_high (z : Nat) : ((z >>> 8) <<< 8) ^^^ (z &&& 0xFF) = z := by
  apply Nat.eq_of_testBit_eq
  intro i
  rw [Nat.testBit_xor, Nat.testBit_and]
  rw [show (0xFF : Nat) = 2 ^ 8 - 1 from rfl, Nat.testBit_two_pow_sub_one]
  rw [Nat.testBit_shiftLeft]
  rcases Nat.lt_or_ge i 8 with h | h
  · have h1 : decide (i ≥ 8) = false := by
      simp only [decide_eq_false_iff_not]
      omega
    have h2 : decide (i < 8) = true := by
      simp only [decide_eq_true_eq]
      omega
    rw [h1, h2]
    simp
  · have h1 : decide (i ≥ 8) = true := by
      simp only [decide_eq_true_eq]
      omega
    have h2 : decide (i < 8) = false := by
      simp only [decide_eq_false_iff_not]
      omega
    rw [h1, h2, Nat.testBit_shiftRight, show 8 + (i - 8) = i from by omega]
    simp

/-- The table-driven byte step of the framing CRC equals eight bit rounds of
the transport CRC, for byte inputs. -/
theorem crc_byte_step_eq (crc b : Nat) (hb : b < 256) :
    (crc >>> 8) ^^^ MODBUS_16_CRC ((crc ^^^ b) &&& 0xFF) = crcBitRounds 8 (crc ^^^ b) := by
  have hz : crc ^^^ b = (((crc ^^^ b) >>> 8) <<< 8) ^^^ ((crc ^^^ b) &&& 0xFF) :=
    (xor_low_high (crc ^^^ b)).symm
  have hb8 : b >>> 8 = 0 := by
    rw [Nat.shiftRight_eq_div_pow]
    have h8 : (2 : Nat) ^ 8 = 256 := rfl
    rw [h8]
    omega
  have hhi : (crc ^^^ b) >>> 8 = crc >>> 8 := by
    rw [shiftRight_xor_distrib, hb8, Nat.xor_zero]
  calc (crc >>> 8) ^^^ MODBUS_16_CRC ((crc ^^^ b) &&& 0xFF)
      = ((crc ^^^ b) >>> 8) ^^^ crcBitRounds 8 ((crc ^^^ b) &&& 0xFF) := by
        rw [hhi, MODBUS_16_CRC]
    _ = crcBitRounds 8 ((((crc ^^^ b) >>> 8) <<< 8)) ^^^
          crcBitRounds 8 ((crc ^^^ b) &&& 0xFF) := by
        rw [crcBitRounds_shiftLeft]
    _ = crcBitRounds 8 ((((crc ^^^ b) >>> 8) <<< 8) ^^^ ((crc ^^^ b) &&& 0xFF)) := by
        rw [crcBitRounds_xor]
    _ = crcBitRounds 8 (crc ^^^ b) := by rw [← hz]

/-- Claim C10: for every byte sequence the table-driven CRC-16 of the framing
layer and the bit-by-bit CRC-16 loop of the serial transport layer compute the
same checksum. -/
theorem calc_crc_table_eq_bitwise (data : List Nat) (hb : ∀ b ∈ data, b < 256) :
    frame_rtu.calc_crc data = transport_rtu.calc_crc data := by
  unfold frame_rtu.calc_crc transport_rtu.calc_crc
  suffices h : ∀ (l : List Nat), (∀ b ∈ l, b < 256) → ∀ crc : Nat,
      l.foldl (fun crc byte => (crc >>> 8) ^^^ MODBUS_16_CRC ((crc ^^^ byte) &&& 0xFF)) crc =
        l.foldl (fun crc byte => crcBitRounds 8 (crc ^^^ byte)) crc by
    exact h data hb 0xFFFF
  intro l
  induction l with
  | nil => intro _ _; rfl
  | cons b rest ih =>
    intro hl crc
    show List.foldl _ ((crc >>> 8) ^^^ MODBUS_16_CRC ((crc ^^^ b) &&& 0xFF)) rest = _
    rw [crc_byte_step_eq crc b (hl b (by simp))]
    exact ih (fun x hx => hl x (by simp [hx])) _

/-- Witness for C10 on the byte sequence [0x11, 0x03, 0xAB]. -/
theorem calc_crc_table_eq_bitwise_witness :
    frame_rtu.calc_crc [0x11, 0x03, 0xAB] = transport_rtu.calc_crc [0x11, 0x03, 0xAB] :=
  calc_crc_table_eq_bitwise [0x11, 0x03, 0xAB] (by decide)

end Modbus
